import Mathlib

/-!
Shallow embedding of the progress-display engine of the Tone-AI-Devops
front end (src/components/DeploymentResults.tsx, component `DeploymentLogs`),
of the prompt screen guard (src/components/MagicCanvas.tsx, `handleDeploy`),
and of the data they operate on.

The JavaScript engine is single-threaded and timer-driven: `processStep`
appends a `running` log entry for the current step, schedules a timeout of
the step duration that marks the entry `completed` and, after a further
500 ms settle timeout, recurses on the next step; past the last step a
1000 ms timeout fires the `onComplete` callback.  We model `setTimeout` by
an explicit list of pending timers over a virtual clock: the event loop
repeatedly fires the pending timer with the smallest deadline (first among
equals, matching the insertion-order tie-break of JavaScript timers), sets
the clock to that deadline, and runs the timer body.  `Date` timestamps are
the virtual clock value at entry creation.  React state (`logs`,
`currentStep`) is ordinary state; `onComplete` invocations are recorded in
an append-only list.  The closure variable `stepIndex` is carried inside
the timer actions: within one run exactly one timer is outstanding and only
that chain reads or writes `stepIndex`, so the encoding is exact, and a
re-activation creates a fresh closure exactly as the source does.
-/

namespace Tone

/-- Status of a log entry, from the `LogEntry` interface:
`"pending" | "running" | "completed" | "error"`. -/
inductive Status where
  | pending
  | running
  | completed
  | error
deriving DecidableEq, Repr, Inhabited

/-- One element of the `deploymentSteps` array: message, details, icon
(the React node is represented by the icon component name) and duration. -/
structure StepDef where
  message : String
  details : String
  icon : String
  duration : Nat
deriving DecidableEq, Repr, Inhabited

/-- The fixed step catalog `deploymentSteps` from `DeploymentLogs`. -/
def deploymentSteps : List StepDef :=
  [ { message := "요구사항 분석 중...",
      details := "Google Gemini API로 자연어 해석",
      icon := "Zap", duration := 2000 },
    { message := "설계도(YAML) 생성 완료",
      details := "Kubernetes + Istio + Vault 설정 자동 생성",
      icon := "Terminal", duration := 3000 },
    { message := "Git 저장소에 커밋 중...",
      details := "Config Repo에 인프라 설계도 저장",
      icon := "GitBranch", duration := 2000 },
    { message := "Argo CD가 동기화를 시작했습니다",
      details := "GitOps 기반 자동 배포 트리거",
      icon := "Server", duration := 4000 },
    { message := "Kubernetes 클러스터에 배포 중...",
      details := "Pod, Service, Ingress 리소스 생성",
      icon := "Server", duration := 3000 },
    { message := "Istio 보안 정책 적용 중...",
      details := "mTLS + AuthorizationPolicy 자동 설정",
      icon := "Shield", duration := 2500 },
    { message := "도메인 연결 및 SSL 인증서 발급...",
      details := "Let\x27s Encrypt 자동 인증서 + Gateway 설정",
      icon := "Globe", duration := 3000 },
    { message := "배포 완료! 🎉",
      details := "모든 서비스가 정상 동작하고 있습니다",
      icon := "CheckCircle", duration := 1000 } ]

/-- A log entry (`LogEntry` interface).  `timestamp` is the virtual-clock
value standing for `new Date()`. -/
structure LogEntry where
  id : String
  message : String
  status : Status
  timestamp : Nat
  icon : String
  details : String
deriving DecidableEq, Repr, Inhabited

/-- The payload handed to `onComplete` (`DeploymentResult` interface). -/
structure CompletionPayload where
  liveUrl : String
  sourceRepo : String
  configRepo : String
  services : List String
  status : String
deriving DecidableEq, Repr

/-- The literal object passed to `onComplete` in `processStep`. -/
def completionPayload : CompletionPayload :=
  { liveUrl := "https://chat.my-app.com"
    sourceRepo := "https://github.com/tone-platform/my-chat-app"
    configRepo := "https://github.com/tone-platform/my-chat-app-config"
    services := ["Frontend", "Backend", "Redis", "Database"]
    status := "deployed" }

/-- The body of a scheduled `setTimeout` callback.  `runStep idx` is the
settle-delay continuation `setTimeout(processStep, 500)` with the closure
variable `stepIndex = idx`; `finishStep idx` is the per-step completion
callback; `fireComplete` is the final `onComplete` timeout. -/
inductive TimerAction where
  | runStep (idx : Nat)
  | finishStep (idx : Nat)
  | fireComplete
deriving DecidableEq, Repr

/-- A pending timer: absolute deadline plus the scheduled action. -/
structure Timer where
  fireAt : Nat
  action : TimerAction
deriving DecidableEq, Repr

/-- The engine state: the two React state cells (`logs`, `currentStep`),
the pending timers of the ambient event loop, the record of `onComplete`
invocations, and the virtual clock. -/
structure EngineState where
  logs : List LogEntry
  currentStep : Nat
  timers : List Timer
  completions : List CompletionPayload
  now : Nat
deriving DecidableEq, Repr

/-- The entry id generated in `processStep`: `` `step-${stepIndex}` ``. -/
def stepId (idx : Nat) : String := "step-" ++ toString idx

/-- The update `setLogs(prev => prev.map(log => log.id === id ? { ...log,
status: "completed" } : log))` performed by the step-completion timeout. -/
def markCompleted (id : String) (logs : List LogEntry) : List LogEntry :=
  logs.map fun l => if l.id = id then { l with status := Status.completed } else l

/-- `processStep` from `DeploymentLogs`: past the last step it schedules
the 1000 ms `onComplete` timeout; otherwise it appends a `running` entry
for step `stepIndex`, publishes `stepIndex` as `currentStep`, and
schedules the step-duration timeout that will complete the entry. -/
def processStep (stepIndex : Nat) (s : EngineState) : EngineState :=
  if stepIndex ≥ deploymentSteps.length then
    { s with timers := s.timers ++ [⟨s.now + 1000, TimerAction.fireComplete⟩] }
  else
    let sd := deploymentSteps.getD stepIndex default
    let logEntry : LogEntry :=
      { id := stepId stepIndex
        message := sd.message
        details := sd.details
        status := Status.running
        timestamp := s.now
        icon := sd.icon }
    { s with
        logs := s.logs ++ [logEntry]
        currentStep := stepIndex
        timers := s.timers ++ [⟨s.now + sd.duration, TimerAction.finishStep stepIndex⟩] }

/-- Run the body of a fired timer.  `finishStep idx` marks step `idx`
completed and schedules the 500 ms settle timer carrying `stepIndex + 1`;
`runStep idx` is `processStep` at that index; `fireComplete` invokes
`onComplete` with the constant payload. -/
def fireAction (a : TimerAction) (s : EngineState) : EngineState :=
  match a with
  | TimerAction.runStep idx => processStep idx s
  | TimerAction.finishStep idx =>
      { s with
          logs := markCompleted (stepId idx) s.logs
          timers := s.timers ++ [⟨s.now + 500, TimerAction.runStep (idx + 1)⟩] }
  | TimerAction.fireComplete =>
      { s with completions := s.completions ++ [completionPayload] }

/-- Remove the pending timer with the smallest deadline (the first among
equal deadlines, i.e. the earliest scheduled, as JavaScript timers fire in
insertion order on ties). -/
def pickEarliest : List Timer → Option (Timer × List Timer)
  | [] => none
  | t :: ts =>
      match pickEarliest ts with
      | none => some (t, [])
      | some (u, us) => if t.fireAt ≤ u.fireAt then some (t, ts) else some (u, t :: us)

/-- One event-loop turn: fire the earliest pending timer, advancing the
virtual clock to its deadline.  `none` when the loop is quiescent. -/
def fireNext (s : EngineState) : Option EngineState :=
  match pickEarliest s.timers with
  | none => none
  | some (t, rest) => fireAction t.action { s with timers := rest, now := t.fireAt }

/-- Run the event loop for at most `n` turns. -/
def run : Nat → EngineState → EngineState
  | 0, s => s
  | n + 1, s =>
      match fireNext s with
      | none => s
      | some s2 => run n s2

/-- The body of the `useEffect` when `isActive` holds: reset `logs` and
`currentStep`, set the closure variable `stepIndex` to `0`, and call
`processStep()` synchronously.  Pending timers are NOT cancelled (the
effect has no cleanup function). -/
def activate (s : EngineState) : EngineState :=
  processStep 0 { s with logs := [], currentStep := 0 }

/-- The props of `DeploymentLogs`.  `onComplete` is modelled by the
`completions` record in the state; `prompt` is carried verbatim. -/
structure DeploymentLogsProps where
  isActive : Bool
  prompt : String

/-- The `useEffect` of `DeploymentLogs`: `if (!isActive) return;` then the
activation body.  The `prompt` prop is in scope in the component but is
not read anywhere in the effect. -/
def deploymentLogsEffect (p : DeploymentLogsProps) (s : EngineState) : EngineState :=
  if p.isActive then activate s else s

/-- A fresh engine at virtual time `t0`: empty log, `currentStep = 0`
(`useState(0)`), no pending timers, no completed runs. -/
def initState (t0 : Nat) : EngineState :=
  { logs := [], currentStep := 0, timers := [], completions := [], now := t0 }

/-- The state of a single-activation run started at time `t0`, after `i`
event-loop turns.  A full run takes 17 turns: two timers per step
(finish, settle) and the final `onComplete` timeout. -/
def trace (t0 i : Nat) : EngineState :=
  run i (activate (initState t0))

/-- The quiescent final state of a single-activation run. -/
def finalState (t0 : Nat) : EngineState :=
  trace t0 17

/-- The code points removed by JavaScript `String.prototype.trim`:
ECMAScript WhiteSpace — TAB U+0009, VT U+000B, FF U+000C, SP U+0020,
NBSP U+00A0, ZWNBSP U+FEFF and every Unicode space-separator (category
Zs: U+0020, U+00A0, U+1680, U+2000..U+200A, U+202F, U+205F, U+3000) —
together with LineTerminator: LF U+000A, CR U+000D, LS U+2028,
PS U+2029. -/
def jsWhitespace (c : Char) : Bool :=
  let n := c.toNat
  n == 0x09 || n == 0x0A || n == 0x0B || n == 0x0C || n == 0x0D ||
    n == 0x20 || n == 0xA0 || n == 0x1680 ||
    (0x2000 ≤ n && n ≤ 0x200A) ||
    n == 0x2028 || n == 0x2029 || n == 0x202F || n == 0x205F ||
    n == 0x3000 || n == 0xFEFF

/-- Model of JavaScript `String.prototype.trim`: drop the ECMAScript
whitespace code points from both ends of the character sequence.
(Defined on the character list so that it evaluates inside the kernel;
`String.trim` of the Lean library does not reduce, and strips a smaller
whitespace set.) -/
def jsTrim (s : String) : String :=
  ⟨((s.data.dropWhile jsWhitespace).reverse.dropWhile jsWhitespace).reverse⟩

/-- `handleDeploy` from `MagicCanvas`: `if (prompt.trim() && !isDeploying)
{ onDeploy(prompt); }` — a non-empty string is truthy, and the invocation
of `onDeploy` is modelled by the `some` result carrying the argument it is
passed. -/
def handleDeploy (prompt : String) (isDeploying : Bool) : Option String :=
  if jsTrim prompt != "" && !isDeploying then some prompt else none

/-- Is there a log entry for step `idx` (of either status)? -/
def entryPresent (idx : Nat) (s : EngineState) : Bool :=
  s.logs.any fun e => e.id == stepId idx

/-- Is there a log entry for step `idx` with status `completed`? -/
def entryCompleted (idx : Nat) (s : EngineState) : Bool :=
  s.logs.any fun e => e.id == stepId idx && e.status == Status.completed

/-- A status sequence is well formed when it is a (possibly empty) block of
`completed` entries optionally followed by a single trailing `running`
entry: no `pending`, no `error`, at most one `running`, everything before
it `completed`, nothing after it. -/
def statusesOk : List Status → Bool
  | [] => true
  | Status.completed :: rest => statusesOk rest
  | [Status.running] => true
  | _ => false

/-!
Time-shift simulation: the engine is invariant under translating the
virtual clock, so every run is the run started at time `0` with all
timestamps shifted.  This lets each claim about an arbitrary run be
settled by evaluating the canonical run.
-/

/-- Shift a pending timer's deadline by `d`. -/
def shiftTimer (d : Nat) (t : Timer) : Timer :=
  { t with fireAt := t.fireAt + d }

/-- Shift a log entry's creation timestamp by `d`. -/
def shiftEntry (d : Nat) (e : LogEntry) : LogEntry :=
  { e with timestamp := e.timestamp + d }

/-- Shift every clock-valued field of the state by `d`. -/
def shiftState (d : Nat) (s : EngineState) : EngineState :=
  { logs := s.logs.map (shiftEntry d)
    currentStep := s.currentStep
    timers := s.timers.map (shiftTimer d)
    completions := s.completions
    now := s.now + d }

theorem processStep_shift (idx d : Nat) (s : EngineState) :
    processStep idx (shiftState d s) = shiftState d (processStep idx s) := by
  by_cases h : idx ≥ deploymentSteps.length
  · simp [processStep, h, shiftState, shiftTimer]
    omega
  · simp [processStep, h, shiftState, shiftTimer, shiftEntry]
    omega

theorem markCompleted_shift (id : String) (d : Nat) (logs : List LogEntry) :
    markCompleted id (logs.map (shiftEntry d)) = (markCompleted id logs).map (shiftEntry d) := by
  induction logs with
  | nil => rfl
  | cons l ls ih =>
      by_cases h : l.id = id <;>
        simp [markCompleted, shiftEntry, h] at ih ⊢ <;> exact ih

theorem fireAction_shift (a : TimerAction) (d : Nat) (s : EngineState) :
    fireAction a (shiftState d s) = shiftState d (fireAction a s) := by
  cases a with
  | runStep idx => exact processStep_shift idx d s
  | finishStep idx =>
      simp [fireAction, shiftState, shiftTimer, markCompleted_shift]
      omega
  | fireComplete => simp [fireAction, shiftState]

theorem pickEarliest_shift (d : Nat) :
    ∀ ts : List Timer,
      pickEarliest (ts.map (shiftTimer d)) =
        (pickEarliest ts).map (fun p => (shiftTimer d p.1, p.2.map (shiftTimer d)))
  | [] => rfl
  | t :: ts => by
      rw [List.map_cons, pickEarliest, pickEarliest, pickEarliest_shift d ts]
      cases h : pickEarliest ts with
      | none => rfl
      | some p =>
          obtain ⟨u, us⟩ := p
          by_cases hle : t.fireAt ≤ u.fireAt <;>
            simp [shiftTimer, hle, Nat.add_le_add_iff_right]

theorem fireNext_shift (d : Nat) (s : EngineState) :
    fireNext (shiftState d s) = (fireNext s).map (shiftState d) := by
  rw [fireNext, fireNext,
      show (shiftState d s).timers = s.timers.map (shiftTimer d) from rfl,
      pickEarliest_shift]
  cases h : pickEarliest s.timers with
  | none => rfl
  | some p =>
      obtain ⟨t, rest⟩ := p
      show some (fireAction t.action (shiftState d { s with timers := rest, now := t.fireAt })) =
        some (shiftState d (fireAction t.action { s with timers := rest, now := t.fireAt }))
      rw [fireAction_shift]

theorem run_shift (d : Nat) :
    ∀ (n : Nat) (s : EngineState), run n (shiftState d s) = shiftState d (run n s)
  | 0, s => rfl
  | n + 1, s => by
      rw [run, run, fireNext_shift]
      cases fireNext s with
      | none => rfl
      | some s2 => exact run_shift d n s2

theorem activate_shift (d : Nat) (s : EngineState) :
    activate (shiftState d s) = shiftState d (activate s) := by
  rw [activate, activate,
      show ({ shiftState d s with logs := [], currentStep := 0 } : EngineState) =
        shiftState d { s with logs := [], currentStep := 0 } from rfl]
  exact processStep_shift 0 d _

theorem initState_shift (t0 : Nat) : shiftState t0 (initState 0) = initState t0 := by
  simp [shiftState, initState]

theorem trace_shift (t0 i : Nat) : trace t0 i = shiftState t0 (trace 0 i) := by
  rw [trace, trace, ← initState_shift, activate_shift, run_shift]

/-!
Clock-independent projections of a run: the log's ids, messages, details
and statuses, the published step index, the completion record, and the
number of pending timers do not depend on the start time.
-/

theorem trace_completions (t0 i : Nat) :
    (trace t0 i).completions = (trace 0 i).completions := by
  rw [trace_shift]
  rfl

theorem trace_currentStep (t0 i : Nat) :
    (trace t0 i).currentStep = (trace 0 i).currentStep := by
  rw [trace_shift]
  rfl

theorem trace_timers (t0 i : Nat) :
    (trace t0 i).timers = ((trace 0 i).timers).map (shiftTimer t0) := by
  rw [trace_shift]
  rfl

theorem trace_logsView (t0 i : Nat) :
    (trace t0 i).logs.map (fun e => (e.id, e.message, e.details, e.status)) =
      (trace 0 i).logs.map (fun e => (e.id, e.message, e.details, e.status)) := by
  rw [trace_shift]
  show ((trace 0 i).logs.map (shiftEntry t0)).map _ = _
  rw [List.map_map]
  rfl

theorem trace_statuses (t0 i : Nat) :
    (trace t0 i).logs.map LogEntry.status = (trace 0 i).logs.map LogEntry.status := by
  rw [trace_shift]
  show ((trace 0 i).logs.map (shiftEntry t0)).map _ = _
  rw [List.map_map]
  rfl

theorem trace_ids (t0 i : Nat) :
    (trace t0 i).logs.map LogEntry.id = (trace 0 i).logs.map LogEntry.id := by
  rw [trace_shift]
  show ((trace 0 i).logs.map (shiftEntry t0)).map _ = _
  rw [List.map_map]
  rfl

theorem trace_logs_length (t0 i : Nat) :
    (trace t0 i).logs.length = (trace 0 i).logs.length := by
  rw [trace_shift]
  show ((trace 0 i).logs.map (shiftEntry t0)).length = _
  rw [List.length_map]

theorem entryPresent_trace (idx t0 i : Nat) :
    entryPresent idx (trace t0 i) = entryPresent idx (trace 0 i) := by
  rw [entryPresent, entryPresent, trace_shift]
  show ((trace 0 i).logs.map (shiftEntry t0)).any _ = _
  rw [List.any_map]
  rfl

theorem entryCompleted_trace (idx t0 i : Nat) :
    entryCompleted idx (trace t0 i) = entryCompleted idx (trace 0 i) := by
  rw [entryCompleted, entryCompleted, trace_shift]
  show ((trace 0 i).logs.map (shiftEntry t0)).any _ = _
  rw [List.any_map]
  rfl

/-!
Pointwise description of `markCompleted`, for the frame claim.
-/

theorem markCompleted_length (id : String) (logs : List LogEntry) :
    (markCompleted id logs).length = logs.length := by
  rw [markCompleted, List.length_map]

theorem markCompleted_getD (id : String) :
    ∀ (logs : List LogEntry) (j : Nat), j < logs.length →
      (markCompleted id logs).getD j default =
        (if (logs.getD j default).id = id
         then { logs.getD j default with status := Status.completed }
         else logs.getD j default)
  | [], j, h => by simp at h
  | l :: ls, 0, h => by
      by_cases hid : l.id = id <;> simp [markCompleted, hid]
  | l :: ls, j + 1, h => by
      have hj : j < ls.length := by simpa using h
      simpa [markCompleted, List.getD] using markCompleted_getD id ls j hj

theorem markCompleted_noop (id : String) (logs : List LogEntry)
    (h : ∀ e ∈ logs, e.id ≠ id) : markCompleted id logs = logs := by
  induction logs with
  | nil => rfl
  | cons l ls ih =>
      have hl : l.id ≠ id := h l (List.mem_cons_self l ls)
      have ht : ∀ e ∈ ls, e.id ≠ id := fun e he => h e (List.mem_cons_of_mem l he)
      simp [markCompleted, hl] at ih ⊢
      exact ih ht

/-- Re-activation scenario for the stale-timer hazard: a run activated at
time 0 is re-activated at time 100, while the first run's step-0 timer
(deadline 2000) is still pending — the effect has no cleanup, so nothing
cancels it. -/
def reactivationScenario : EngineState :=
  activate { activate (initState 0) with now := 100 }

/-- C1: every run of the step engine that reaches the `Completed` state
(here: the quiescent end of the single-activation run, with `onComplete`
recorded) has exactly `deploymentSteps.length = 8` log entries, appearing
in catalog order with the catalog's messages and details, every one with
status `completed`.  `t0` is the arbitrary activation time; the run is
deterministic given `t0`. -/
theorem C1_completed_run_totality (t0 : Nat) :
    deploymentSteps.length = 8 ∧
    (finalState t0).timers = [] ∧
    (finalState t0).completions = [completionPayload] ∧
    (finalState t0).logs.length = deploymentSteps.length ∧
    (finalState t0).logs.map (fun e => (e.id, e.message, e.details, e.status)) =
      deploymentSteps.enum.map
        (fun p => (stepId p.1, p.2.message, p.2.details, Status.completed)) := by
  refine ⟨rfl, ?_, ?_, ?_, ?_⟩
  · rw [finalState, trace_timers]
    rfl
  · rw [finalState, trace_completions]
    rfl
  · rw [finalState, trace_logs_length]
    rfl
  · rw [finalState, trace_logsView]
    rfl

/-- C2: `onComplete` is invoked exactly once per run — the final state
records exactly one invocation and is quiescent, at every instant at most
one invocation has been recorded, and any instant with an invocation
already has the last (8th) entry marked `completed`. -/
theorem C2_single_callback (t0 : Nat) :
    (finalState t0).completions = [completionPayload] ∧
    (finalState t0).timers = [] ∧
    (∀ i, i ≤ 17 → (trace t0 i).completions.length ≤ 1) ∧
    (∀ i, i ≤ 17 → 1 ≤ (trace t0 i).completions.length →
      entryCompleted (deploymentSteps.length - 1) (trace t0 i) = true) := by
  have hb : ∀ i, i ≤ 17 → (trace 0 i).completions.length ≤ 1 := by decide
  have hc : ∀ i, i ≤ 17 → 1 ≤ (trace 0 i).completions.length →
      entryCompleted (deploymentSteps.length - 1) (trace 0 i) = true := by decide
  refine ⟨?_, ?_, ?_, ?_⟩
  · rw [finalState, trace_completions]
    rfl
  · rw [finalState, trace_timers]
    rfl
  · intro i hi
    rw [trace_completions]
    exact hb i hi
  · intro i hi h1
    rw [entryCompleted_trace]
    exact hc i hi (by rwa [trace_completions] at h1)

theorem C2_single_callback_witness :
    (trace 0 5).completions.length ≤ 1 ∧
    entryCompleted (deploymentSteps.length - 1) (trace 0 17) = true :=
  ⟨(C2_single_callback 0).2.2.1 5 (by decide),
   (C2_single_callback 0).2.2.2 17 (by decide) (by decide)⟩

/-- C3: at every instant of a run, if the log already holds an entry for
step `k + 1` then the entry for step `k` has status `completed`, and if
`onComplete` has been invoked then the last step's entry has status
`completed`.  The event system is deterministic (exactly one timer is
outstanding during a run), so the instants of `trace` are all reachable
configurations. -/
theorem C3_ordering (t0 : Nat) :
    ∀ i, i ≤ 17 →
      (∀ k, k < deploymentSteps.length - 1 →
        entryPresent (k + 1) (trace t0 i) = true →
        entryCompleted k (trace t0 i) = true) ∧
      (1 ≤ (trace t0 i).completions.length →
        entryCompleted (deploymentSteps.length - 1) (trace t0 i) = true) := by
  have h : ∀ i, i ≤ 17 →
      (∀ k, k < deploymentSteps.length - 1 →
        entryPresent (k + 1) (trace 0 i) = true →
        entryCompleted k (trace 0 i) = true) ∧
      (1 ≤ (trace 0 i).completions.length →
        entryCompleted (deploymentSteps.length - 1) (trace 0 i) = true) := by decide
  intro i hi
  refine ⟨?_, ?_⟩
  · intro k hk hp
    rw [entryCompleted_trace]
    exact (h i hi).1 k hk (by rwa [entryPresent_trace] at hp)
  · intro h1
    rw [entryCompleted_trace]
    exact (h i hi).2 (by rwa [trace_completions] at h1)

theorem C3_ordering_witness :
    entryCompleted 6 (trace 0 17) = true ∧
    entryCompleted (deploymentSteps.length - 1) (trace 0 17) = true :=
  ⟨(C3_ordering 0 17 (by decide)).1 6 (by decide) (by decide),
   (C3_ordering 0 17 (by decide)).2 (by decide)⟩

/-- C4: at every instant of a run the status sequence of the log is a
block of `completed` entries with at most a single trailing `running`
entry (so no `pending` entry is ever materialized, no entry ever has
status `error`, at most one entry is `running`, everything before it is
`completed`); the entry ids are exactly `step-0 .. step-(len-1)` in order
(so no entry exists yet for any later step); and each event-loop turn
either appends exactly one entry, created with status `running`, or
appends nothing. -/
theorem C4_status_invariant (t0 : Nat) :
    (∀ i, i ≤ 17 →
      statusesOk ((trace t0 i).logs.map LogEntry.status) = true ∧
      (trace t0 i).logs.map LogEntry.id =
        (List.range (trace t0 i).logs.length).map stepId) ∧
    (∀ i, i < 17 →
      (trace t0 (i + 1)).logs.map LogEntry.status =
          (trace t0 i).logs.map LogEntry.status ++ [Status.running] ∨
      (trace t0 (i + 1)).logs.length = (trace t0 i).logs.length) := by
  have h1 : ∀ i, i ≤ 17 →
      statusesOk ((trace 0 i).logs.map LogEntry.status) = true ∧
      (trace 0 i).logs.map LogEntry.id =
        (List.range (trace 0 i).logs.length).map stepId := by decide
  have h2 : ∀ i, i < 17 →
      (trace 0 (i + 1)).logs.map LogEntry.status =
          (trace 0 i).logs.map LogEntry.status ++ [Status.running] ∨
      (trace 0 (i + 1)).logs.length = (trace 0 i).logs.length := by decide
  refine ⟨?_, ?_⟩
  · intro i hi
    rw [trace_statuses, trace_ids, trace_logs_length]
    exact h1 i hi
  · intro i hi
    rw [trace_statuses t0 (i + 1), trace_statuses t0 i,
        trace_logs_length t0 (i + 1), trace_logs_length t0 i]
    exact h2 i hi

theorem C4_status_invariant_witness :
    statusesOk ((trace 0 3).logs.map LogEntry.status) = true ∧
    ((trace 0 2).logs.map LogEntry.status =
        (trace 0 1).logs.map LogEntry.status ++ [Status.running] ∨
      (trace 0 2).logs.length = (trace 0 1).logs.length) :=
  ⟨((C4_status_invariant 0).1 3 (by decide)).1,
   (C4_status_invariant 0).2 1 (by decide)⟩

/-- C5 counterexample: the published step index (`currentStep`, the
`currentStepIndex` of the spec's observable state) never reaches
`deploymentSteps.length = 8`.  In the canonical run it is `7` in the
terminal state — the run is over (no pending timers, `onComplete`
recorded) — and it differs from `deploymentSteps.length` at every one of
the 18 instants, because `setCurrentStep(stepIndex)` only executes in the
`stepIndex < deploymentSteps.length` branch of `processStep`. -/
theorem C5_counterexample :
    (finalState 0).timers = [] ∧
    (finalState 0).completions = [completionPayload] ∧
    (finalState 0).currentStep = 7 ∧
    ((List.range 18).all
      fun i => (trace 0 i).currentStep != deploymentSteps.length) = true := by
  refine ⟨rfl, rfl, rfl, ?_⟩
  decide

/-- C5 amended: `currentStepIndex` starts at 0 and increases monotonically
(non-strictly) until it equals `deploymentSteps.length - 1 = 7` — the
index of the final step — which is still its value in the terminal state;
it always stays strictly below `deploymentSteps.length`.  (The closure
counter `stepIndex` does reach 8, but the published `currentStep` state
does not.) -/
theorem C5_currentStep_monotone (t0 : Nat) :
    (trace t0 0).currentStep = 0 ∧
    (∀ i, i < 17 → (trace t0 i).currentStep ≤ (trace t0 (i + 1)).currentStep) ∧
    (∀ i, i ≤ 17 → (trace t0 i).currentStep < deploymentSteps.length) ∧
    (finalState t0).currentStep = deploymentSteps.length - 1 ∧
    (finalState t0).timers = [] := by
  have h1 : ∀ i, i < 17 →
      (trace 0 i).currentStep ≤ (trace 0 (i + 1)).currentStep := by decide
  have h2 : ∀ i, i ≤ 17 → (trace 0 i).currentStep < deploymentSteps.length := by decide
  refine ⟨?_, ?_, ?_, ?_, ?_⟩
  · rw [trace_currentStep]
    rfl
  · intro i hi
    rw [trace_currentStep t0 i, trace_currentStep t0 (i + 1)]
    exact h1 i hi
  · intro i hi
    rw [trace_currentStep]
    exact h2 i hi
  · rw [finalState, trace_currentStep]
    rfl
  · rw [finalState, trace_timers]
    rfl

theorem C5_currentStep_monotone_witness :
    (trace 0 4).currentStep ≤ (trace 0 5).currentStep ∧
    (trace 0 17).currentStep < deploymentSteps.length :=
  ⟨(C5_currentStep_monotone 0).2.1 4 (by decide),
   (C5_currentStep_monotone 0).2.2.1 17 (by decide)⟩

/-- C6: the prompt is opaque to the engine — activating with any two
prompt strings (in particular the empty and a non-empty one) produces the
very same execution: identical log entries (ids, messages, details,
statuses and timestamps), identical pending timers and timing, identical
`currentStep` and completion record, at every number of event-loop
turns. -/
theorem C6_prompt_noninterference (p1 p2 : String) (t0 n : Nat) :
    run n (deploymentLogsEffect ⟨true, p1⟩ (initState t0)) =
      run n (deploymentLogsEffect ⟨true, p2⟩ (initState t0)) := rfl

/-- C7: for every start time and every prompt, the payload handed to
`onComplete` at the end of the run is the fixed constant record — the
same URLs, repo names, service labels and status, not derived from the
run or the prompt. -/
theorem C7_constant_payload (t0 : Nat) (prompt : String) :
    (run 17 (deploymentLogsEffect ⟨true, prompt⟩ (initState t0))).completions =
      [{ liveUrl := "https://chat.my-app.com"
         sourceRepo := "https://github.com/tone-platform/my-chat-app"
         configRepo := "https://github.com/tone-platform/my-chat-app-config"
         services := ["Frontend", "Backend", "Redis", "Database"]
         status := "deployed" }] := by
  show (trace t0 17).completions = _
  rw [trace_completions]
  rfl

/-- C8: `markCompleted id` keeps the log's length; at every position the
entry keeps its id, message, details, timestamp and icon, and its status
becomes `completed` exactly when its id matches `id` and is untouched
otherwise; and when no entry carries `id` the whole log is returned
unchanged (a no-op). -/
theorem C8_markCompleted_frame (id : String) (logs : List LogEntry) :
    (markCompleted id logs).length = logs.length ∧
    (∀ j, j < logs.length →
      ((markCompleted id logs).getD j default).id = (logs.getD j default).id ∧
      ((markCompleted id logs).getD j default).message = (logs.getD j default).message ∧
      ((markCompleted id logs).getD j default).details = (logs.getD j default).details ∧
      ((markCompleted id logs).getD j default).timestamp = (logs.getD j default).timestamp ∧
      ((markCompleted id logs).getD j default).icon = (logs.getD j default).icon ∧
      ((markCompleted id logs).getD j default).status =
        (if (logs.getD j default).id = id then Status.completed
         else (logs.getD j default).status)) ∧
    ((∀ e ∈ logs, e.id ≠ id) → markCompleted id logs = logs) := by
  refine ⟨markCompleted_length id logs, ?_, markCompleted_noop id logs⟩
  intro j hj
  rw [markCompleted_getD id logs j hj]
  by_cases h : (logs.getD j default).id = id
  · have e : (if (logs.getD j default).id = id
        then { logs.getD j default with status := Status.completed }
        else logs.getD j default) =
          { logs.getD j default with status := Status.completed } := if_pos h
    rw [e, if_pos h]
    exact ⟨rfl, rfl, rfl, rfl, rfl, rfl⟩
  · have e : (if (logs.getD j default).id = id
        then { logs.getD j default with status := Status.completed }
        else logs.getD j default) = logs.getD j default := if_neg h
    rw [e, if_neg h]
    exact ⟨rfl, rfl, rfl, rfl, rfl, rfl⟩

/-- Two concrete entries exercising the frame theorem of `markCompleted`:
one matching, one not. -/
def demoLog : List LogEntry :=
  [{ id := "step-0", message := "m0", status := Status.running,
     timestamp := 3, icon := "Zap", details := "d0" },
   { id := "step-1", message := "m1", status := Status.running,
     timestamp := 4, icon := "Shield", details := "d1" }]

theorem C8_markCompleted_frame_witness :
    ((markCompleted "step-0" demoLog).getD 0 default).status =
      (if (demoLog.getD 0 default).id = "step-0" then Status.completed
       else (demoLog.getD 0 default).status) ∧
    markCompleted "absent" demoLog = demoLog :=
  ⟨((C8_markCompleted_frame "step-0" demoLog).2.1 0 (by decide)).2.2.2.2.2,
   (C8_markCompleted_frame "absent" demoLog).2.2 (by decide)⟩

/-- C9: triggering the activation body again while a run is in flight
restarts unconditionally — the log is reset to exactly the new run's
fresh `step-0` entry (created at the re-activation time 100) and
`currentStep` returns to 0 — while the abandoned run's pending timer
(deadline 2000) is NOT cancelled and remains scheduled.  That stale timer
then fires first (at 2000, before the new run's own timer at 2100) and
mutates the freshly reset log: it marks the new run's entry `completed`;
two turns later the two surviving settle chains append duplicate
`step-1` entries, leaving two simultaneously `running` entries. -/
theorem C9_stale_timer_mutation :
    reactivationScenario.logs.map (fun e => (e.id, e.timestamp, e.status)) =
      [("step-0", 100, Status.running)] ∧
    reactivationScenario.currentStep = 0 ∧
    reactivationScenario.timers =
      [⟨2000, TimerAction.finishStep 0⟩, ⟨2100, TimerAction.finishStep 0⟩] ∧
    (run 1 reactivationScenario).now = 2000 ∧
    (run 1 reactivationScenario).logs.map (fun e => (e.id, e.timestamp, e.status)) =
      [("step-0", 100, Status.completed)] ∧
    (run 4 reactivationScenario).logs.map (fun e => (e.id, e.status)) =
      [("step-0", Status.completed),
       ("step-1", Status.running), ("step-1", Status.running)] := by
  refine ⟨rfl, rfl, rfl, rfl, rfl, rfl⟩

/-- C10: the prompt screen's `handleDeploy` invokes `onDeploy` (modelled
by the `some` result) only when the trimmed prompt is non-empty and
`isDeploying` is false: a prompt whose trimmed form is empty (in
particular any whitespace-only prompt) never deploys, a deploy while
`isDeploying` never happens, and the callback receives exactly the
original prompt. -/
theorem C10_no_blank_deploy (prompt : String) (isDeploying : Bool) :
    (jsTrim prompt = "" → handleDeploy prompt isDeploying = none) ∧
    handleDeploy prompt true = none ∧
    (handleDeploy prompt isDeploying = some prompt ↔
      jsTrim prompt ≠ "" ∧ isDeploying = false) := by
  refine ⟨?_, ?_, ?_⟩
  · intro h
    simp [handleDeploy, h]
  · simp [handleDeploy]
  · cases isDeploying <;> by_cases h : jsTrim prompt = "" <;>
      simp [handleDeploy, h]

theorem C10_no_blank_deploy_witness :
    handleDeploy "   " false = none ∧
    handleDeploy "　\t   \u000B" false = none ∧
    handleDeploy "Python chat app with Redis" true = none :=
  ⟨(C10_no_blank_deploy "   " false).1 (by decide),
   (C10_no_blank_deploy "　\t   \u000B" false).1 (by decide),
   (C10_no_blank_deploy "Python chat app with Redis" true).2.1⟩

end Tone
